import Mathlib

/-!
Shallow embedding of the hexagonal-grid subsystem of `Bevy2d_Utilities`
(`src/grids/hexgrid.rs`), together with theorems settling the spec claims.

Modelling conventions:
* Rust `u32` / `u64` values are modelled as `Nat`; casts `u32 as i32` are
  modelled as the coercion `Nat → Int` (overflow behaviour of machine
  integers is outside the scope of the claims, which concern the
  geometric/combinatorial model).
* Rust `f32` values are modelled as `ℚ`; the float literals of the source
  (`0.866`, `0.75`, `0.375`, …) become the corresponding rational literals.
* A Rust `panic!` is modelled by returning `none` from an `Option`-valued
  function: the operation aborts without producing a result.
* The Bevy ECS world is modelled explicitly: a grid entity is a `HexGrid`
  value together with the list of its child entities; a child entity
  carries an optional `HexTile` component (the `Query<&HexTile>` lookup may
  fail) and an optional `Sprite` component.  `AssetServer::load` is
  modelled as the identity on path strings: the visual reference of a tile
  is the path it was loaded from.
-/

namespace Bevy2dUtilities

/-- Model of `HexGridOrientation` from `hexgrid.rs`: `Vertical` is implemented,
`Horizontal` is reserved and unimplemented. -/
inductive HexGridOrientation where
  | Vertical
  | Horizontal
deriving DecidableEq, Repr

/-- The `HexTile` component: the tile's grid coordinates. -/
structure HexTile where
  x : Nat
  y : Nat
deriving DecidableEq, Repr

/-- The `HexGrid` component: id, orientation, extent and tile pixel width. -/
structure HexGrid where
  id : Nat
  orientation : HexGridOrientation
  columns : Nat
  rows : Nat
  hextile_width : ℚ
deriving DecidableEq, Repr

/-- Model of `Visibility` from Bevy, restricted to the two variants the source uses. -/
inductive Visibility where
  | Visible
  | Hidden
deriving DecidableEq, Repr

/-- The bundle returned by `HexTile::get_bundle`: the tile component, the
translation of its `Transform`, and its `Visibility`. -/
structure TileBundle where
  tile : HexTile
  translation : ℚ × ℚ
  visibility : Visibility
deriving DecidableEq, Repr

namespace HexTile

/-- Model of `HexTile::new`. -/
def new (x y : Nat) : HexTile := ⟨x, y⟩

/-- Model of `HexTile::coord_to_world`: the intended translation of the tile entity
relative to the centre of its parent grid.  The `Horizontal` branch of the
source panics, modelled as `none`. -/
def coord_to_world (t : HexTile) (hextile_width : ℚ) (columns rows : Nat)
    (orientation : HexGridOrientation) : Option (ℚ × ℚ) :=
  let hextile_height : ℚ := hextile_width * 0.866
  match orientation with
  | .Vertical =>
      let x : ℚ :=
        (((t.x : ℚ) * hextile_width * 0.75)
          - ((hextile_width * 0.75) * ((columns / 2 : Nat) : ℚ)
              - hextile_width * 0.375))
          - (if columns % 2 ≠ 0 then hextile_width * 0.375 else 0)
      let y : ℚ :=
        ((t.y : ℚ) * hextile_height
            + (if t.x % 2 ≠ 0 then hextile_height / 2 else 0))
          - (hextile_height * ((rows / 2 : Nat) : ℚ) - hextile_height / 4)
          - (if rows % 2 ≠ 0 then hextile_height / 2 else 0)
      some (x, y)
  | .Horizontal => none

/-- Model of `HexTile::coord_to_order`: the 1-based row-major order index of the tile. -/
def coord_to_order (t : HexTile) (columns : Nat) : Nat :=
  (t.x + 1) + t.y * columns

/-- The candidate neighbour offsets used by `HexTile::get_neighbors` under
`Vertical` orientation: the source selects one of two six-element offset
arrays by column parity. -/
def neighborOffsets (x : Int) : List (Int × Int) :=
  if x % 2 = 0 then
    [(1, 0), (-1, 0), (0, -1), (0, 1), (1, -1), (-1, -1)]
  else
    [(1, 0), (-1, 0), (0, -1), (0, 1), (1, 1), (-1, 1)]

/-- Model of `HexTile::get_neighbors`: the in-bounds neighbour coordinates of the
tile.  The source pushes `(nx as u32, ny as u32)` for each offset whose
target is inside `[0, columns) × [0, rows)`; the `Horizontal` branch
panics, modelled as `none`. -/
def get_neighbors (t : HexTile) (columns rows : Nat)
    (orientation : HexGridOrientation) : Option (List (Nat × Nat)) :=
  let x : Int := t.x
  let y : Int := t.y
  match orientation with
  | .Vertical =>
      some <| (neighborOffsets x).filterMap fun d =>
        let nx := x + d.1
        let ny := y + d.2
        if nx ≥ 0 ∧ ny ≥ 0 ∧ nx < (columns : Int) ∧ ny < (rows : Int) then
          some (nx.toNat, ny.toNat)
        else
          none
  | .Horizontal => none

/-- Model of `HexTile::get_bundle`: it computes the relative position first (so a
`Horizontal` call panics inside `coord_to_world`), then matches on the
orientation again; the `Horizontal` branch panics.  Both aborts are
modelled as `none`. -/
def get_bundle (t : HexTile) (orientation : HexGridOrientation)
    (columns rows : Nat) (hextile_width : ℚ) : Option TileBundle :=
  match t.coord_to_world hextile_width columns rows orientation with
  | none => none
  | some relative_pos =>
      match orientation with
      | .Vertical => some ⟨t, relative_pos, .Visible⟩
      | .Horizontal => none

end HexTile

/-- The counter `HEXGRID_COUNTER` starts at 1 (`AtomicU64::new(1)`). -/
def hexgridCounterInit : Nat := 1

/-- Model of `reset_hexgrid_counter`: it stores 1 into the counter. -/
def reset_hexgrid_counter (_counter : Nat) : Nat := 1

namespace HexGrid

/-- Model of `HexGrid::new`: `fetch_add(1)` returns the previous counter value, which
becomes the new grid's id; the counter state is threaded explicitly. -/
def new (orientation : HexGridOrientation) (columns rows : Nat)
    (hextile_width : ℚ) (counter : Nat) : HexGrid × Nat :=
  (⟨counter, orientation, columns, rows, hextile_width⟩, counter + 1)

/-- A sequence of `HexGrid::new` calls with the given parameter tuples,
threading the counter; returns the constructed grids and the final counter. -/
def newSeq : List (HexGridOrientation × Nat × Nat × ℚ) → Nat →
    List HexGrid × Nat
  | [], counter => ([], counter)
  | (o, c, r, w) :: ps, counter =>
      let (g, counter') := new o c r w counter
      let (gs, counterF) := newSeq ps counter'
      (g :: gs, counterF)

/-- The result of `HexGrid::build_spawn_hexgrid_entity_system`: the parent
grid entity's visibility and the bundles of its spawned children. -/
structure SpawnedGrid where
  parentVisibility : Visibility
  children : List TileBundle
deriving DecidableEq, Repr

/-- The `(col, row)` pairs enumerated by the spawn system's nested loops:
`for col in 0..columns { for row in 0..rows { ... } }`. -/
def spawnAddresses (columns rows : Nat) : List (Nat × Nat) :=
  (List.range columns).flatMap fun col =>
    (List.range rows).map fun row => (col, row)

/-- The child-spawning loop of `build_spawn_hexgrid_entity_system`: spawn
one child per address with the bundle from `HexTile::get_bundle`; a panic
in any bundle construction aborts the whole loop (`none`). -/
def spawnChildrenLoop (orientation : HexGridOrientation) (columns rows : Nat)
    (hextile_width : ℚ) : List (Nat × Nat) → Option (List TileBundle)
  | [] => some []
  | a :: rest =>
      match (HexTile.new a.1 a.2).get_bundle orientation columns rows
          hextile_width with
      | none => none
      | some b =>
          match spawnChildrenLoop orientation columns rows hextile_width
              rest with
          | none => none
          | some bs => some (b :: bs)

/-- Model of `HexGrid::build_spawn_hexgrid_entity_system`: it spawns the parent entity
with `Visibility::Hidden`, then one child per `(col, row)` address with the
bundle from `HexTile::get_bundle`.  If any bundle construction panics
(`Horizontal`), the whole system aborts, modelled as `none`. -/
def build_spawn_hexgrid_entity (g : HexGrid) : Option SpawnedGrid :=
  match spawnChildrenLoop g.orientation g.columns g.rows g.hextile_width
      (spawnAddresses g.columns g.rows) with
  | none => none
  | some bundles => some ⟨.Hidden, bundles⟩

end HexGrid

/-- Model of `TileTextures` from `hexgrid.rs`: a single path, or an ordered rule list
`(ranges, path)` with a default path.  Ranges are inclusive `(start, end)`
pairs in order-index notation. -/
inductive TileTextures where
  | Single (path : String)
  | Multiple (rules : List (List (Nat × Nat) × String)) (default_path : String)
deriving DecidableEq, Repr

/-- Whether `order_pos` lies inside the inclusive range `(start, end)`:
the source tests `order_pos >= start && order_pos <= end`. -/
def rangeContains (range : Nat × Nat) (order_pos : Nat) : Bool :=
  order_pos ≥ range.1 && order_pos ≤ range.2

/-- Whether any range of the rule contains `order_pos` (the `ranges.iter()
.any(...)` test of the source). -/
def ruleMatches (rule : List (Nat × Nat) × String) (order_pos : Nat) : Bool :=
  rule.1.any fun range => rangeContains range order_pos

/-- The `Multiple`-branch body of `build_change_hexgrid_textures_system` for
one child: starting from the current `texture`, the first pass
(`.iter().find(...)`) overwrites with the FIRST matching rule's path if any
rule matches, then the nested loops overwrite with every matching rule's
path in declaration order. -/
def resolveMultiple (rules : List (List (Nat × Nat) × String))
    (texture : String) (order_pos : Nat) : String :=
  let texture₁ :=
    match rules.find? (fun rule => ruleMatches rule order_pos) with
    | some rule => rule.2
    | none => texture
  rules.foldl
    (fun t rule =>
      rule.1.foldl
        (fun t' range => if rangeContains range order_pos then rule.2 else t')
        t)
    texture₁

/-- One iteration of the per-child loop of
`build_change_hexgrid_textures_system`: under `Single` the texture variable
is never touched; under `Multiple` it is updated by `resolveMultiple`. -/
def resolveTile (spec : TileTextures) (texture : String) (order_pos : Nat) :
    String :=
  match spec with
  | .Single _ => texture
  | .Multiple rules _ => resolveMultiple rules texture order_pos

/-- The initial value of the mutable `texture` variable, set once per grid
before the per-child loop. -/
def initTexture : TileTextures → String
  | .Single path => path
  | .Multiple _ default_path => default_path

/-- The per-child loop of `build_change_hexgrid_textures_system`, threading
the mutable `texture` variable across iterations (it is declared OUTSIDE
the loop in the source): each child's `order_pos` is computed by
`HexTile::coord_to_order` with the grid's column count; returns, in
iteration order, the path each child tile's `Sprite.image` is set to. -/
def paintTiles (spec : TileTextures) (columns : Nat) (texture : String) :
    List HexTile → List String
  | [] => []
  | hextile :: rest =>
      let t := resolveTile spec texture (hextile.coord_to_order columns)
      t :: paintTiles spec columns t rest

/-- Model of `build_change_hexgrid_textures_system`, restricted to one grid whose id
matches: given the grid's column count and its child `HexTile`s in
iteration order, the paths their sprites are set to. -/
def change_hexgrid_textures (spec : TileTextures) (columns : Nat)
    (tiles : List HexTile) : List String :=
  paintTiles spec columns (initTexture spec) tiles

/-- A child entity of a grid: an optional `HexTile` component (the
`Query<&HexTile>` lookup in the source may fail) and an optional `Sprite`,
reduced to the data the source writes: the image path and the
`custom_size` footprint. -/
structure Sprite where
  custom_size : ℚ × ℚ
  image : String
deriving DecidableEq, Repr

/-- A child entity as seen by the two texture systems. -/
structure TileEntity where
  hextile : Option HexTile
  sprite : Option Sprite
deriving DecidableEq, Repr

/-- The ECS world as seen by the texture systems: each grid entity with its
`HexGrid` component and its children. -/
abbrev GridWorld : Type := List (HexGrid × List TileEntity)

/-- The body of `build_change_hextile_textures_system` for one grid entity:
grids with a different id are skipped (`continue`); otherwise every child
whose `HexTile` coordinates are in `hextiles_coords` gets a fresh `Sprite`
with the given image and the fixed footprint
`(hextile_width, hextile_width * 0.866)`. -/
def changeHextileTexturesGrid (grid_id : Nat) (texture_path : String)
    (hextiles_coords : List (Nat × Nat)) (g : HexGrid)
    (children : List TileEntity) : List TileEntity :=
  if g.id ≠ grid_id then children
  else
    children.map fun e =>
      match e.hextile with
      | none => e
      | some hextile =>
          if hextiles_coords.contains (hextile.x, hextile.y) then
            { e with sprite := some ⟨(g.hextile_width, g.hextile_width * 0.866),
                texture_path⟩ }
          else e

/-- Model of `build_change_hextile_textures_system`: it applies the per-grid body to
every grid entity in the world. -/
def change_hextile_textures (grid_id : Nat) (texture_path : String)
    (hextiles_coords : List (Nat × Nat)) (world : GridWorld) : GridWorld :=
  world.map fun gc =>
    (gc.1, changeHextileTexturesGrid grid_id texture_path hextiles_coords
      gc.1 gc.2)

/-! ## Specification-side definitions

`lastMatchPath` captures the spec's "last match wins" policy: walk the
rules in declaration order and remember the path of the last rule any of
whose ranges contains the order index.  `resolveMultipleSingleLoop`
follows the spec's words for the refinement claim C9: it is what the
second, unconditionally-overwriting loop ALONE would compute, without the
preceding `find` pass. -/

/-- The path of the last rule, in declaration order, any of whose ranges
contains `order_pos` (`none` if no rule matches). -/
def lastMatchPath (rules : List (List (Nat × Nat) × String))
    (order_pos : Nat) : Option String :=
  rules.foldl
    (fun acc rule => if ruleMatches rule order_pos then some rule.2 else acc)
    none

/-- Spec-side single-pass resolution for claim C9: only the nested
overwrite-on-every-match loops, with no first-match `find` pass. -/
def resolveMultipleSingleLoop (rules : List (List (Nat × Nat) × String))
    (texture : String) (order_pos : Nat) : String :=
  rules.foldl
    (fun t rule =>
      rule.1.foldl
        (fun t' range => if rangeContains range order_pos then rule.2 else t')
        t)
    texture

/-- Spec-side per-child step for claim C9 (single-pass variant of
`resolveTile`). -/
def resolveTileSingleLoop (spec : TileTextures) (texture : String)
    (order_pos : Nat) : String :=
  match spec with
  | .Single _ => texture
  | .Multiple rules _ => resolveMultipleSingleLoop rules texture order_pos

/-- Spec-side single-pass variant of `paintTiles` for claim C9. -/
def paintTilesSingleLoop (spec : TileTextures) (columns : Nat)
    (texture : String) : List HexTile → List String
  | [] => []
  | hextile :: rest =>
      let t := resolveTileSingleLoop spec texture
        (hextile.coord_to_order columns)
      t :: paintTilesSingleLoop spec columns t rest

/-- Spec-side single-pass variant of `change_hexgrid_textures` for claim
C9. -/
def change_hexgrid_textures_single_loop (spec : TileTextures)
    (columns : Nat) (tiles : List HexTile) : List String :=
  paintTilesSingleLoop spec columns (initTexture spec) tiles

/-! ## Concrete example data (a realized 3×3 grid) -/

/-- A live tile entity at the given address, with no sprite yet. -/
def exampleTile (a : Nat × Nat) : TileEntity := ⟨some ⟨a.1, a.2⟩, none⟩

/-- The nine live tile entities of a realized 3×3 grid. -/
def exampleChildren3x3 : List TileEntity :=
  (HexGrid.spawnAddresses 3 3).map exampleTile

/-- A 3×3 vertical grid descriptor with id 1 and tile width 1. -/
def exampleGrid3 : HexGrid := ⟨1, .Vertical, 3, 3, 1⟩

/-- A world holding one realized 3×3 grid. -/
def exampleWorld3x3 : GridWorld := [(exampleGrid3, exampleChildren3x3)]

/-! ## Helper lemmas: the texture rule engine -/

/-- The inner overwrite loop over one rule's ranges: the result is the
rule's path if any range contains the order index, else the accumulator. -/
theorem innerLoop_eq (ranges : List (Nat × Nat)) (p t : String) (o : Nat) :
    ranges.foldl
        (fun t' range => if rangeContains range o then p else t') t =
      if ranges.any (fun range => rangeContains range o) then p else t := by
  induction ranges generalizing t with
  | nil => simp
  | cons r rs ih =>
      simp only [List.foldl_cons, List.any_cons, ih]
      by_cases h : rangeContains r o = true <;>
        by_cases h' : rs.any (fun range => rangeContains range o) = true <;>
        simp [h, h']

/-- Folding the last-match accumulator from an arbitrary start value. -/
theorem lastMatchPath_foldl (rules : List (List (Nat × Nat) × String))
    (o : Nat) : ∀ acc : Option String,
    rules.foldl
        (fun acc' rule =>
          if ruleMatches rule o then some rule.2 else acc') acc =
      (lastMatchPath rules o).or acc := by
  induction rules with
  | nil => intro acc; rfl
  | cons r rs ih =>
      intro acc
      have hcons : lastMatchPath (r :: rs) o =
          (lastMatchPath rs o).or
            (if ruleMatches r o then some r.2 else none) := by
        simp only [lastMatchPath, List.foldl_cons]
        rw [ih (if ruleMatches r o then some r.2 else none)]
        simp only [lastMatchPath]
      rw [List.foldl_cons, ih, hcons]
      cases lastMatchPath rs o with
      | some q => rfl
      | none =>
          by_cases h : ruleMatches r o = true <;> simp [h]

/-- Unfolding `lastMatchPath` at a cons cell. -/
theorem lastMatchPath_cons (r : List (Nat × Nat) × String)
    (rs : List (List (Nat × Nat) × String)) (o : Nat) :
    lastMatchPath (r :: rs) o =
      (lastMatchPath rs o).or
        (if ruleMatches r o then some r.2 else none) := by
  simp only [lastMatchPath, List.foldl_cons]
  rw [lastMatchPath_foldl rs o (if ruleMatches r o then some r.2 else none)]
  simp only [lastMatchPath]

/-- The value `lastMatchPath` is `none` exactly when no rule matches. -/
theorem lastMatchPath_eq_none_iff (rules : List (List (Nat × Nat) × String))
    (o : Nat) :
    lastMatchPath rules o = none ↔
      ∀ rule ∈ rules, ruleMatches rule o = false := by
  induction rules with
  | nil => simp [lastMatchPath]
  | cons r rs ih =>
      rw [lastMatchPath_cons]
      cases hLM : lastMatchPath rs o with
      | some q =>
          have h1 : (some q).or
              (if ruleMatches r o then some r.2 else none) = some q := rfl
          rw [h1]
          constructor
          · intro h; cases h
          · intro hall
            have h2 : lastMatchPath rs o = none :=
              ih.mpr fun rule hm => hall rule (List.mem_cons_of_mem r hm)
            rw [h2] at hLM
            cases hLM
      | none =>
          by_cases hr : ruleMatches r o = true
          · have h1 : Option.or none
                (if ruleMatches r o then some r.2 else none) = some r.2 := by
              rw [if_pos hr]
              rfl
            rw [h1]
            constructor
            · intro h; cases h
            · intro hall
              simp [hall r (List.mem_cons_self r rs)] at hr
          · have h1 : Option.or none
                (if ruleMatches r o then some r.2 else none) = none := by
              rw [if_neg hr]
              rfl
            rw [h1]
            rw [Bool.not_eq_true] at hr
            constructor
            · intro _ rule hm
              rcases List.mem_cons.mp hm with h | h
              · rw [h]; exact hr
              · exact ih.mp hLM rule h
            · intro _; rfl

/-- The double overwrite loop alone computes last-match-wins. -/
theorem singleLoop_eq_lastMatch (rules : List (List (Nat × Nat) × String))
    (o : Nat) : ∀ t : String,
    resolveMultipleSingleLoop rules t o = (lastMatchPath rules o).getD t := by
  induction rules with
  | nil => intro t; rfl
  | cons r rs ih =>
      intro t
      have hstep : resolveMultipleSingleLoop (r :: rs) t o =
          resolveMultipleSingleLoop rs
            (if ruleMatches r o then r.2 else t) o := by
        simp only [resolveMultipleSingleLoop, List.foldl_cons]
        rw [innerLoop_eq]
        rfl
      rw [hstep, ih, lastMatchPath_cons]
      cases lastMatchPath rs o with
      | some q => rfl
      | none =>
          by_cases hr : ruleMatches r o = true <;> simp [hr]

/-- The full `Multiple` branch (find pass, then double loop) also computes
last-match-wins: the find pass's effect is always overwritten. -/
theorem resolveMultiple_eq_lastMatch
    (rules : List (List (Nat × Nat) × String)) (t : String) (o : Nat) :
    resolveMultiple rules t o = (lastMatchPath rules o).getD t := by
  have hdouble : ∀ t', rules.foldl
      (fun t'' rule =>
        rule.1.foldl
          (fun t₃ range => if rangeContains range o then rule.2 else t₃)
          t'') t' = resolveMultipleSingleLoop rules t' o := by
    intro t'; rfl
  unfold resolveMultiple
  rw [hdouble, singleLoop_eq_lastMatch]
  cases hLM : lastMatchPath rules o with
  | some p => simp
  | none =>
      have hnone : rules.find? (fun rule => ruleMatches rule o) = none := by
        rw [List.find?_eq_none]
        intro rule hmem
        simp [(lastMatchPath_eq_none_iff rules o).mp hLM rule hmem]
      simp [hnone]

/-- Computing `lastMatchPath` over an append: the right part takes precedence. -/
theorem lastMatchPath_append (a b : List (List (Nat × Nat) × String))
    (o : Nat) :
    lastMatchPath (a ++ b) o =
      (lastMatchPath b o).or (lastMatchPath a o) := by
  simp only [lastMatchPath, List.foldl_append]
  rw [lastMatchPath_foldl b o]
  rfl

/-- The per-child step agrees with its single-loop (no find pass) variant. -/
theorem resolveTile_eq_singleLoop (spec : TileTextures) (t : String)
    (o : Nat) :
    resolveTile spec t o = resolveTileSingleLoop spec t o := by
  cases spec with
  | Single p => rfl
  | Multiple rules d =>
      show resolveMultiple rules t o = resolveMultipleSingleLoop rules t o
      rw [resolveMultiple_eq_lastMatch, singleLoop_eq_lastMatch]

/-- The whole per-child loop agrees with its single-loop variant. -/
theorem paintTiles_eq_singleLoop (spec : TileTextures) (columns : Nat) :
    ∀ (tiles : List HexTile) (t : String),
      paintTiles spec columns t tiles =
        paintTilesSingleLoop spec columns t tiles := by
  intro tiles
  induction tiles with
  | nil => intro t; rfl
  | cons a rest ih =>
      intro t
      simp only [paintTiles, paintTilesSingleLoop, resolveTile_eq_singleLoop]
      rw [ih]

/-- If some rule matches a tile's order index, the path painted at that
tile's position is the last matching rule's path, independently of the
carried texture. -/
theorem paintTiles_getElem_of_match
    (rules : List (List (Nat × Nat) × String)) (d : String) (columns : Nat)
    (tile : HexTile) (p : String)
    (hp : lastMatchPath rules (tile.coord_to_order columns) = some p) :
    ∀ (tiles : List HexTile) (i : Nat) (t : String),
      tiles[i]? = some tile →
      (paintTiles (.Multiple rules d) columns t tiles)[i]? = some p := by
  intro tiles
  induction tiles with
  | nil => intro i t h; simp at h
  | cons a rest ih =>
      intro i t h
      cases i with
      | zero =>
          rw [List.getElem?_cons_zero] at h
          injection h with h
          subst h
          simp only [paintTiles, List.getElem?_cons_zero]
          show some (resolveMultiple rules t _) = some p
          rw [resolveMultiple_eq_lastMatch, hp]
          rfl
      | succ n =>
          rw [List.getElem?_cons_succ] at h
          simp only [paintTiles, List.getElem?_cons_succ]
          exact ih n _ h

/-! ## Claim theorems: the texture rule engine -/

/-- C1 (evaluation at the failing input): the claim says a tile whose order
index matches no rule gets `default_path` regardless of which tiles were
processed before it.  The code instead carries the mutable `texture`
variable across loop iterations: with rules `[([(1,1)], "a.png")]` and
default `"d.png"`, a grid whose children have order indices `[1, 2]` gets
`"a.png"` for BOTH tiles — the unmatched tile (order 2) receives the
previous tile's path, not the default. -/
theorem c1_default_carryover_eval :
    change_hexgrid_textures
        (.Multiple [([(1, 1)], "a.png")] "d.png") 1 [⟨0, 0⟩, ⟨0, 1⟩] =
      ["a.png", "a.png"] ∧ "a.png" ≠ "d.png" := by
  constructor
  · rfl
  · decide

/-- C2: in `apply_uniform_or_ranged` with a `Multiple(rules, default)` spec,
every tile whose order index `o` is contained in some rule's ranges is
painted with the path of the LAST rule in declaration order whose ranges
contain `o` (last match wins), regardless of the tile's position in the
iteration. -/
theorem c2_last_match_wins (rules₁ rules₂ : List (List (Nat × Nat) × String))
    (ranges : List (Nat × Nat)) (p d : String) (columns : Nat)
    (tiles : List HexTile) (i : Nat) (tile : HexTile)
    (ho : tiles[i]? = some tile)
    (hmatch : ruleMatches (ranges, p) (tile.coord_to_order columns) = true)
    (hafter : ∀ rule ∈ rules₂,
      ruleMatches rule (tile.coord_to_order columns) = false) :
    (change_hexgrid_textures
        (.Multiple (rules₁ ++ (ranges, p) :: rules₂) d) columns
        tiles)[i]? = some p := by
  have hmid : lastMatchPath ((ranges, p) :: rules₂)
      (tile.coord_to_order columns) = some p := by
    rw [lastMatchPath_cons,
      (lastMatchPath_eq_none_iff rules₂ _).mpr hafter, if_pos hmatch]
    rfl
  have hall : lastMatchPath (rules₁ ++ (ranges, p) :: rules₂)
      (tile.coord_to_order columns) = some p := by
    rw [lastMatchPath_append, hmid]
    rfl
  exact paintTiles_getElem_of_match _ d columns tile p hall tiles i _ ho

/-- C2 witness: with rules `[([(1,3)], "a.png"), ([(2,4)], "b.png")]` and
default `"d.png"` on a 5-column grid, the tile `(1,0)` of order 2 (child
index 1) is painted `"b.png"`: the later matching rule overrides the
earlier one. -/
theorem c2_last_match_wins_witness :
    (change_hexgrid_textures
        (.Multiple [([(1, 3)], "a.png"), ([(2, 4)], "b.png")] "d.png") 5
        [⟨0, 0⟩, ⟨1, 0⟩, ⟨4, 0⟩])[1]? = some "b.png" :=
  c2_last_match_wins [([(1, 3)], "a.png")] [] [(2, 4)] "b.png" "d.png" 5
    [⟨0, 0⟩, ⟨1, 0⟩, ⟨4, 0⟩] 1 ⟨1, 0⟩ rfl (by decide) (by decide)

/-- C9: the first matching pass (the `find` that overwrites with the FIRST
matching rule's path) is redundant: the two-pass `Multiple` branch computes
exactly what the second, unconditionally-overwriting loop alone would
produce, so the whole repaint is observationally equal to a single
last-match-wins pass. -/
theorem c9_find_pass_redundant (spec : TileTextures) (columns : Nat)
    (tiles : List HexTile) :
    change_hexgrid_textures spec columns tiles =
      change_hexgrid_textures_single_loop spec columns tiles :=
  paintTiles_eq_singleLoop spec columns tiles (initTexture spec)

/-! ## Claim theorems: the ordering index -/

/-- C3: for every `columns ≥ 1` and `rows ≥ 1`, `coord_to_order` is a
bijection from the address set `[0,columns) × [0,rows)` onto the interval
`[1, columns*rows]`; in particular for `columns = 5`, `(0,0) ↦ 1`,
`(4,0) ↦ 5` and `(0,1) ↦ 6`. -/
theorem c3_coord_to_order_bijection (columns rows : Nat)
    (hc : 1 ≤ columns) (hr : 1 ≤ rows) :
    Set.BijOn (fun a : Nat × Nat => HexTile.coord_to_order ⟨a.1, a.2⟩ columns)
        (Set.Ico 0 columns ×ˢ Set.Ico 0 rows)
        (Set.Icc 1 (columns * rows)) ∧
      HexTile.coord_to_order ⟨0, 0⟩ 5 = 1 ∧
      HexTile.coord_to_order ⟨4, 0⟩ 5 = 5 ∧
      HexTile.coord_to_order ⟨0, 1⟩ 5 = 6 := by
  refine ⟨⟨?_, ?_, ?_⟩, rfl, rfl, rfl⟩
  · rintro ⟨x, y⟩ ⟨⟨-, hx⟩, -, hy⟩
    simp only [HexTile.coord_to_order, Set.mem_Icc]
    constructor
    · omega
    · have h1 : x + 1 ≤ columns := hx
      have h2 : y + 1 ≤ rows := hy
      calc (x + 1) + y * columns ≤ columns + y * columns := by omega
        _ = (y + 1) * columns := by ring
        _ ≤ rows * columns := Nat.mul_le_mul_right columns h2
        _ = columns * rows := Nat.mul_comm rows columns
  · rintro ⟨x, y⟩ ⟨⟨-, hx⟩, -, -⟩ ⟨x', y'⟩ ⟨⟨-, hx'⟩, -, -⟩ heq
    simp only [HexTile.coord_to_order] at heq
    have hx1 : ((x + 1) + y * columns) % columns = (x + 1) % columns := by
      simp [Nat.add_mul_mod_self_right]
    have hx2 : ((x' + 1) + y' * columns) % columns = (x' + 1) % columns := by
      simp [Nat.add_mul_mod_self_right]
    have hxx : x = x' := by
      rcases Nat.lt_or_ge (x + 1) columns with h | h
      · rcases Nat.lt_or_ge (x' + 1) columns with h' | h'
        · have := hx1.symm.trans (heq ▸ hx2)
          rw [Nat.mod_eq_of_lt h, Nat.mod_eq_of_lt h'] at this
          omega
        · have hx'c : x' + 1 = columns := by omega
          have : (x' + 1) % columns = 0 := by
            rw [hx'c, Nat.mod_self]
          have h0 := hx1.symm.trans (heq ▸ hx2)
          rw [Nat.mod_eq_of_lt h, this] at h0
          omega
      · have hxc : x + 1 = columns := by omega
        rcases Nat.lt_or_ge (x' + 1) columns with h' | h'
        · have : (x + 1) % columns = 0 := by rw [hxc, Nat.mod_self]
          have h0 := hx1.symm.trans (heq ▸ hx2)
          rw [this, Nat.mod_eq_of_lt h'] at h0
          omega
        · omega
    subst hxx
    have hyy : y = y' := by
      have : y * columns = y' * columns := by omega
      exact Nat.eq_of_mul_eq_mul_right (by omega) this
    rw [hyy]
  · rintro n ⟨hn1, hn2⟩
    refine ⟨((n - 1) % columns, (n - 1) / columns), ⟨⟨Nat.zero_le _, ?_⟩,
      Nat.zero_le _, ?_⟩, ?_⟩
    · exact Nat.mod_lt _ (by omega)
    · rw [Nat.div_lt_iff_lt_mul (by omega)]
      calc n - 1 < columns * rows := by omega
        _ = rows * columns := Nat.mul_comm columns rows
    · simp only [HexTile.coord_to_order]
      have := Nat.mod_add_div' (n - 1) columns
      omega

/-- C3 witness: instantiation at `columns = 5`, `rows = 2`. -/
theorem c3_coord_to_order_bijection_witness :
    Set.BijOn (fun a : Nat × Nat => HexTile.coord_to_order ⟨a.1, a.2⟩ 5)
        (Set.Ico 0 5 ×ˢ Set.Ico 0 2) (Set.Icc 1 (5 * 2)) ∧
      HexTile.coord_to_order ⟨0, 0⟩ 5 = 1 ∧
      HexTile.coord_to_order ⟨4, 0⟩ 5 = 5 ∧
      HexTile.coord_to_order ⟨0, 1⟩ 5 = 6 :=
  c3_coord_to_order_bijection 5 2 (by decide) (by decide)

/-! ## Claim theorems: the adjacency resolver -/

/-- The offset lists are duplicate-free and never contain `(0, 0)`. -/
theorem neighborOffsets_nodup_ne_zero (x : Int) :
    (HexTile.neighborOffsets x).Nodup ∧
      ∀ d ∈ HexTile.neighborOffsets x, d ≠ ((0 : Int), (0 : Int)) := by
  unfold HexTile.neighborOffsets
  by_cases h : x % 2 = 0
  · rw [if_pos h]
    exact ⟨by decide, by decide⟩
  · rw [if_neg h]
    exact ⟨by decide, by decide⟩

/-- C4: under `Vertical` orientation, `get_neighbors` at an in-bounds
address `(x, y)` returns exactly the set of in-bounds translates of the
parity-dependent offset set, with no duplicates and never the address
itself. -/
theorem c4_get_neighbors_characterization (x y columns rows : Nat)
    (hx : x < columns) (hy : y < rows) :
    ∃ l, HexTile.get_neighbors ⟨x, y⟩ columns rows .Vertical = some l ∧
      (∀ p : Nat × Nat, p ∈ l ↔ ∃ d ∈ HexTile.neighborOffsets (x : Int),
          (p.1 : Int) = (x : Int) + d.1 ∧ (p.2 : Int) = (y : Int) + d.2 ∧
          p.1 < columns ∧ p.2 < rows) ∧
      l.Nodup ∧ (x, y) ∉ l := by
  refine ⟨_, rfl, ?_, ?_, ?_⟩
  · intro p
    rw [List.mem_filterMap]
    constructor
    · rintro ⟨d, hd, hfd⟩
      refine ⟨d, hd, ?_⟩
      by_cases hcond : (x : Int) + d.1 ≥ 0 ∧ (y : Int) + d.2 ≥ 0 ∧
          (x : Int) + d.1 < (columns : Int) ∧ (y : Int) + d.2 < (rows : Int)
      · rw [if_pos hcond] at hfd
        injection hfd with hfd
        obtain ⟨h1, h2, h3, h4⟩ := hcond
        subst hfd
        simp only
        rw [Int.toNat_of_nonneg h1, Int.toNat_of_nonneg h2]
        refine ⟨rfl, rfl, ?_, ?_⟩ <;> omega
      · rw [if_neg hcond] at hfd
        cases hfd
    · rintro ⟨d, hd, h1, h2, h3, h4⟩
      refine ⟨d, hd, ?_⟩
      have hcond : (x : Int) + d.1 ≥ 0 ∧ (y : Int) + d.2 ≥ 0 ∧
          (x : Int) + d.1 < (columns : Int) ∧ (y : Int) + d.2 < (rows : Int) := by
        refine ⟨by omega, by omega, by omega, by omega⟩
      rw [if_pos hcond]
      congr 1
      have hp1 : ((x : Int) + d.1).toNat = p.1 := by omega
      have hp2 : ((y : Int) + d.2).toNat = p.2 := by omega
      rw [hp1, hp2]
  · apply List.Nodup.filterMap
    · intro d d' b hb hb'
      by_cases hcond : (x : Int) + d.1 ≥ 0 ∧ (y : Int) + d.2 ≥ 0 ∧
          (x : Int) + d.1 < (columns : Int) ∧ (y : Int) + d.2 < (rows : Int)
      · rw [if_pos hcond] at hb
        by_cases hcond' : (x : Int) + d'.1 ≥ 0 ∧ (y : Int) + d'.2 ≥ 0 ∧
            (x : Int) + d'.1 < (columns : Int) ∧
            (y : Int) + d'.2 < (rows : Int)
        · rw [if_pos hcond'] at hb'
          rw [Option.mem_def] at hb hb'
          injection hb with hb
          injection hb' with hb'
          have hbb := hb.trans hb'.symm
          have hfst := congrArg Prod.fst hbb
          have hsnd := congrArg Prod.snd hbb
          dsimp only at hfst hsnd
          have hd1 : d.1 = d'.1 := by omega
          have hd2 : d.2 = d'.2 := by omega
          exact Prod.ext hd1 hd2
        · rw [if_neg hcond'] at hb'
          cases hb'
      · rw [if_neg hcond] at hb
        cases hb
    · exact (neighborOffsets_nodup_ne_zero (x : Int)).1
  · intro hmem
    rw [List.mem_filterMap] at hmem
    obtain ⟨d, hd, hfd⟩ := hmem
    by_cases hcond : (x : Int) + d.1 ≥ 0 ∧ (y : Int) + d.2 ≥ 0 ∧
        (x : Int) + d.1 < (columns : Int) ∧ (y : Int) + d.2 < (rows : Int)
    · rw [if_pos hcond] at hfd
      injection hfd with hfd
      have hfst : ((x : Int) + d.1).toNat = x := congrArg Prod.fst hfd
      have hsnd : ((y : Int) + d.2).toNat = y := congrArg Prod.snd hfd
      have hd1 : d.1 = 0 := by omega
      have hd2 : d.2 = 0 := by omega
      exact (neighborOffsets_nodup_ne_zero (x : Int)).2 d hd
        (Prod.ext hd1 hd2)
    · rw [if_neg hcond] at hfd
      cases hfd

/-- C4 witness: instantiation at the interior address `(1, 1)` of a 3×3
grid. -/
theorem c4_get_neighbors_characterization_witness :
    ∃ l, HexTile.get_neighbors ⟨1, 1⟩ 3 3 .Vertical = some l ∧
      (∀ p : Nat × Nat, p ∈ l ↔ ∃ d ∈ HexTile.neighborOffsets ((1 : Nat) : Int),
          (p.1 : Int) = ((1 : Nat) : Int) + d.1 ∧
          (p.2 : Int) = ((1 : Nat) : Int) + d.2 ∧
          p.1 < 3 ∧ p.2 < 3) ∧
      l.Nodup ∧ ((1 : Nat), (1 : Nat)) ∉ l :=
  c4_get_neighbors_characterization 1 1 3 3 (by decide) (by decide)

/-! ## Claim theorems: error handling, registry, descriptor, spawn -/

/-- C5: every coordinate, adjacency, or spawn-bundle operation invoked with
`Horizontal` orientation aborts (panics, modelled as `none`) without
returning any result and without falling back to `Vertical` behaviour, for
all argument values. -/
theorem c5_horizontal_aborts :
    (∀ (t : HexTile) (w : ℚ) (c r : Nat),
        t.coord_to_world w c r .Horizontal = none) ∧
    (∀ (t : HexTile) (c r : Nat),
        t.get_neighbors c r .Horizontal = none) ∧
    (∀ (t : HexTile) (c r : Nat) (w : ℚ),
        t.get_bundle .Horizontal c r w = none) :=
  ⟨fun _ _ _ _ => rfl, fun _ _ _ => rfl, fun _ _ _ _ => rfl⟩

/-- Sequential construction: the ids issued by `newSeq` from counter state
`s` are `s, s+1, …`, and the final counter is `s + n`. -/
theorem newSeq_ids (ps : List (HexGridOrientation × Nat × Nat × ℚ)) :
    ∀ s : Nat,
      ((HexGrid.newSeq ps s).1.map HexGrid.id) = List.range' s ps.length ∧
      (HexGrid.newSeq ps s).2 = s + ps.length := by
  induction ps with
  | nil => intro s; exact ⟨rfl, rfl⟩
  | cons p ps ih =>
      intro s
      obtain ⟨o, c, r, w⟩ := p
      simp only [HexGrid.newSeq, HexGrid.new, List.map_cons, List.length_cons]
      rw [List.range'_succ]
      refine ⟨?_, ?_⟩
      · rw [(ih (s + 1)).1]
      · rw [(ih (s + 1)).2]
        omega

/-- C6: the registry counter starts at 1; `HexGrid::new` returns the current
counter value as the new id and increments the counter; sequential
construction from a fresh counter issues ids `1, 2, …, N` (strictly
increasing, unique, gap-free); `reset_hexgrid_counter` sets the counter
back to 1. -/
theorem c6_counter_sequential_ids :
    hexgridCounterInit = 1 ∧
    (∀ c : Nat, reset_hexgrid_counter c = 1) ∧
    (∀ (o : HexGridOrientation) (c r : Nat) (w : ℚ) (s : Nat),
        (HexGrid.new o c r w s).1.id = s ∧
        (HexGrid.new o c r w s).2 = s + 1) ∧
    (∀ ps : List (HexGridOrientation × Nat × Nat × ℚ),
        ((HexGrid.newSeq ps hexgridCounterInit).1.map HexGrid.id) =
          List.range' 1 ps.length) :=
  ⟨rfl, fun _ => rfl, fun _ _ _ _ _ => ⟨rfl, rfl⟩,
    fun ps => (newSeq_ids ps 1).1⟩

/-- C8 counterexample: `HexGrid::new` performs no validation, so the
descriptor built from `columns = 0` violates the claimed invariant
`columns > 0 ∧ rows > 0 ∧ tile_width > 0`. -/
theorem c8_invariant_counterexample :
    ¬(0 < (HexGrid.new .Vertical 0 3 1 1).1.columns ∧
      0 < (HexGrid.new .Vertical 0 3 1 1).1.rows ∧
      0 < (HexGrid.new .Vertical 0 3 1 1).1.hextile_width) := by
  intro h
  exact absurd h.1 (by decide)

/-- C8 (amended): construction copies its arguments verbatim, so the
constructed descriptor satisfies `columns > 0 ∧ rows > 0 ∧ tile_width > 0`
exactly when the corresponding inputs are positive — the invariant is
preserved from positive inputs but not enforced. -/
theorem c8_invariant_iff_inputs_positive (o : HexGridOrientation)
    (c r : Nat) (w : ℚ) (s : Nat) :
    (0 < (HexGrid.new o c r w s).1.columns ∧
     0 < (HexGrid.new o c r w s).1.rows ∧
     0 < (HexGrid.new o c r w s).1.hextile_width) ↔
      (0 < c ∧ 0 < r ∧ 0 < w) :=
  Iff.rfl

/-- Under `Vertical` orientation `get_bundle` always succeeds and carries
`Visibility::Visible`. -/
theorem get_bundle_vertical (t : HexTile) (c r : Nat) (w : ℚ) :
    ∃ pos, t.get_bundle .Vertical c r w = some ⟨t, pos, .Visible⟩ :=
  ⟨_, rfl⟩

/-- The child-spawning loop under `Vertical` orientation succeeds, yields
one bundle per address, and every bundle is `Visible`. -/
theorem spawnChildrenLoop_vertical (c r : Nat) (w : ℚ) :
    ∀ addrs : List (Nat × Nat), ∃ bs,
      HexGrid.spawnChildrenLoop .Vertical c r w addrs = some bs ∧
      bs.length = addrs.length ∧ ∀ b ∈ bs, b.visibility = .Visible := by
  intro addrs
  induction addrs with
  | nil => exact ⟨[], rfl, rfl, by simp⟩
  | cons a rest ih =>
      obtain ⟨bs, hbs, hlen, hvis⟩ := ih
      obtain ⟨pos, hpos⟩ := get_bundle_vertical (HexTile.new a.1 a.2) c r w
      refine ⟨⟨HexTile.new a.1 a.2, pos, .Visible⟩ :: bs, ?_, ?_, ?_⟩
      · simp only [HexGrid.spawnChildrenLoop, hpos, hbs]
      · simp [hlen]
      · intro b hb
        rcases List.mem_cons.mp hb with h | h
        · rw [h]
        · exact hvis b h

/-- The spawn loops enumerate `columns * rows` addresses. -/
theorem spawnAddresses_length (c r : Nat) :
    (HexGrid.spawnAddresses c r).length = c * r := by
  unfold HexGrid.spawnAddresses
  rw [List.length_flatMap]
  simp [Function.comp_def, List.map_const']

/-- C10: the spawn operation creates the parent grid entity with
`Visibility::Hidden` while every one of its `columns * rows` spawned tile
children carries `Visibility::Visible`. -/
theorem c10_parent_hidden_children_visible (g : HexGrid)
    (hv : g.orientation = .Vertical) :
    ∃ s, HexGrid.build_spawn_hexgrid_entity g = some s ∧
      s.parentVisibility = .Hidden ∧
      s.children.length = g.columns * g.rows ∧
      ∀ b ∈ s.children, b.visibility = .Visible := by
  obtain ⟨bs, hbs, hlen, hvis⟩ :=
    spawnChildrenLoop_vertical g.columns g.rows g.hextile_width
      (HexGrid.spawnAddresses g.columns g.rows)
  refine ⟨⟨.Hidden, bs⟩, ?_, rfl, ?_, hvis⟩
  · unfold HexGrid.build_spawn_hexgrid_entity
    rw [hv, hbs]
  · rw [hlen, spawnAddresses_length]

/-- C10 witness: instantiation at a 2×2 vertical grid. -/
theorem c10_parent_hidden_children_visible_witness :
    ∃ s, HexGrid.build_spawn_hexgrid_entity ⟨1, .Vertical, 2, 2, 1⟩ =
        some s ∧
      s.parentVisibility = .Hidden ∧
      s.children.length = 2 * 2 ∧
      ∀ b ∈ s.children, b.visibility = .Visible :=
  c10_parent_hidden_children_visible ⟨1, .Vertical, 2, 2, 1⟩ rfl

/-! ## Claim theorems: the targeted subset update -/

/-- C7: `apply_to_subset` mutates the sprite of exactly those live tiles
whose parent grid's id equals `grid_id` and whose address is in `coords`
(set to the given path with the fixed footprint); every other tile entity
is returned unchanged. -/
theorem c7_subset_update_frame (grid_id : Nat) (path : String)
    (coords : List (Nat × Nat)) (world : GridWorld) (i j : Nat)
    (g : HexGrid) (children : List TileEntity) (e : TileEntity)
    (hg : world[i]? = some (g, children)) (he : children[j]? = some e) :
    ∃ children',
      (change_hextile_textures grid_id path coords world)[i]? =
        some (g, children') ∧
      children'.length = children.length ∧
      ((g.id = grid_id ∧
          ∃ ht, e.hextile = some ht ∧ (ht.x, ht.y) ∈ coords) →
        children'[j]? =
          some { e with
            sprite := some ⟨(g.hextile_width, g.hextile_width * 0.866), path⟩ }) ∧
      (¬(g.id = grid_id ∧
          ∃ ht, e.hextile = some ht ∧ (ht.x, ht.y) ∈ coords) →
        children'[j]? = some e) := by
  refine ⟨changeHextileTexturesGrid grid_id path coords g children,
    ?_, ?_, ?_, ?_⟩
  · unfold change_hextile_textures
    rw [List.getElem?_map, hg]
    rfl
  · unfold changeHextileTexturesGrid
    by_cases hid : g.id = grid_id
    · rw [if_neg (not_not_intro hid), List.length_map]
    · rw [if_pos hid]
  · rintro ⟨hid, ht, hht, hcoords⟩
    unfold changeHextileTexturesGrid
    rw [if_neg (not_not_intro hid), List.getElem?_map, he,
      Option.map_some']
    simp only [hht]
    rw [if_pos (show coords.contains (ht.x, ht.y) = true from
      List.elem_iff.mpr hcoords)]
  · intro hnot
    unfold changeHextileTexturesGrid
    by_cases hid : g.id = grid_id
    · rw [if_neg (not_not_intro hid), List.getElem?_map, he,
        Option.map_some']
      cases hht : e.hextile with
      | none => simp only [hht]
      | some ht =>
          simp only [hht]
          have hc : ¬(ht.x, ht.y) ∈ coords := fun hmem =>
            hnot ⟨hid, ht, hht, hmem⟩
          rw [if_neg (show ¬coords.contains (ht.x, ht.y) = true from
            fun hcb => hc (List.elem_iff.mp hcb))]
    · rw [if_pos hid]
      exact he

/-- C7 witness: a 3×3 grid with nine live tiles and `coords = [(0,0)]`; the
tile at `(0,0)` (child index 0) is repainted. -/
theorem c7_subset_update_frame_witness :
    ∃ children',
      (change_hextile_textures 1 "t.png" [(0, 0)] exampleWorld3x3)[0]? =
        some (exampleGrid3, children') ∧
      children'.length = exampleChildren3x3.length ∧
      ((exampleGrid3.id = 1 ∧
          ∃ ht, (exampleTile (0, 0)).hextile = some ht ∧
            (ht.x, ht.y) ∈ [((0 : Nat), (0 : Nat))]) →
        children'[0]? =
          some { exampleTile (0, 0) with
            sprite := some ⟨(exampleGrid3.hextile_width,
              exampleGrid3.hextile_width * 0.866), "t.png"⟩ }) ∧
      (¬(exampleGrid3.id = 1 ∧
          ∃ ht, (exampleTile (0, 0)).hextile = some ht ∧
            (ht.x, ht.y) ∈ [((0 : Nat), (0 : Nat))]) →
        children'[0]? = some (exampleTile (0, 0))) :=
  c7_subset_update_frame 1 "t.png" [(0, 0)] exampleWorld3x3 0 0
    exampleGrid3 exampleChildren3x3 (exampleTile (0, 0)) rfl rfl

end Bevy2dUtilities
